import Mathlib

/-!
Shallow embedding of the core pipeline of `research_assistant.py`
(`ResearchAssistant`: keyword extraction → PubMed search → relevance ranking).

Modelling conventions:
* A Python `str`-or-`None` value is `Option String` (`none` = Python `None`);
  `ElementTree` node text is `Optional[str]`, so every `.text` access yields
  `Option String`.
* External I/O (the Anthropic completion calls, the two PubMed HTTP requests)
  is abstracted into an `Env` of oracles; `none` from an oracle models the
  call raising or producing unusable output (the code catches such exceptions
  at the call sites shown in each definition's comment).
* `relevance_score` values appearing in the claims (0.0, 3.0, 9.5, …) are
  exact in IEEE double precision, so scores are modelled as `ℚ`; ordering
  comparisons on such values agree with the Python float comparisons.
* Mutation of the `papers` list inside `_rank_papers_by_relevance` is modelled
  by explicit state passing (`applyRankings` returns the possibly partially
  updated list together with a success flag; `false` = an exception escaped
  the for-loop, reaching the bare `except` branch).
-/

/-- Model of the `Paper` dataclass (lines 20-30 of `research_assistant.py`).
Text fields hold `Option String` because the parser assigns `elem.text`
values, which are `None` for a present-but-empty node. -/
structure Paper where
  title : Option String
  authors : List (Option String)
  abstract : Option String
  journal : Option String
  year : Option String
  pmid : Option String
  pubmed_url : Option String
  relevance_score : ℚ := 0
  relevance_reason : String := ""
deriving Repr, DecidableEq

/-- Python f-string interpolation of a `str`-or-`None` value:
`f"{x}"` renders `None` as the text `"None"`. -/
def pyShow : Option String → String
  | none => "None"
  | some s => s

/-- Python truthiness of a `str`-or-`None` value (`if abstract_elem.text:`):
`None` and the empty string are falsy. -/
def pyTruthyStr : Option String → Bool
  | none => false
  | some s => !s.isEmpty

/-- One `Author` node as the parser sees it: the results of
`author.find('LastName')` and `author.find('ForeName')`.  The outer `Option`
is node presence, the inner one the node's text. -/
structure AuthorXml where
  lastName : Option (Option String)
  foreName : Option (Option String)
deriving Repr, DecidableEq

/-- One `PubmedArticle` node as the parser queries it (lines 180-209):
each field records the result of the corresponding `find`/`findall`. -/
structure ArticleXml where
  articleTitle : Option (Option String)
  abstractTexts : List (Option String)
  authors : List AuthorXml
  pubYear : Option (Option String)
  journalTitle : Option (Option String)
  pmid : Option (Option String)
deriving Repr, DecidableEq

/-- One object of the parsed JSON rankings array (lines 279-283).  Each field
is the result of the corresponding subscript access; `none` models that the
access raises (missing key, or a non-subscriptable item).  `index` is an
integer as produced by JSON for in-range ranking indices. -/
structure RankingItem where
  index : Option Int
  relevance_score : Option ℚ
  reason : Option String
deriving Repr, DecidableEq

/-- The external world of one `process_research_question` run.
`completionKeywords`/`completionRank`: the Anthropic completion results
(`none` = the call raises, or — for ranking — the response text is not valid
JSON / not iterable).  `esearch`: phase-1 response keyed by query and retmax
(`none` = transport/HTTP/XML failure caught at line 138; `some none` = no
`IdList` node; `some (some ids)` = the `Id` elements' texts).  `efetch`:
phase-2 response keyed by the comma-joined id string (`none` = failure caught
at line 171). -/
structure Env where
  completionKeywords : Option String
  esearch : String → Int → Option (Option (List (Option String)))
  efetch : String → Option (List ArticleXml)
  completionRank : Option (List RankingItem)

/-- Embedding of `_extract_keywords` (lines 65-100): on success the stripped
completion text is the query; any exception falls back to the question. -/
def extract_keywords (resp : Option String) (question : String) : String :=
  match resp with
  | some text => text.trim
  | none => question

/-- Embedding of `','.join(paper_ids)` at line 151: `none` models the
`TypeError` Python raises when an item is `None`.  This join happens while
building the request params, before the `try` block of
`_fetch_paper_details`. -/
def joinIds : List (Option String) → Option String
  | [] => some ""
  | [some s] => some s
  | some s :: rest => (joinIds rest).map (fun r => s ++ "," ++ r)
  | none :: _ => none

/-- Embedding of `_get_paper_ids` (lines 113-140): transport/parse failures
and an absent `IdList` node both yield the empty list; otherwise the `Id`
elements' texts are returned. -/
def get_paper_ids (env : Env) (keywords : String) (max_results : Int) :
    List (Option String) :=
  match env.esearch keywords max_results with
  | none => []
  | some none => []
  | some (some ids) => ids

/-- Embedding of `parse_article_xml`'s author loop (lines 191-199), applied to
the (already truncated) author nodes: a node without a `LastName` child
contributes nothing; otherwise the entry is the f-string of the two texts when
`ForeName` is present, else the raw `LastName` text. -/
def parseAuthors : List AuthorXml → List (Option String)
  | [] => []
  | au :: rest =>
    match au.lastName with
    | none => parseAuthors rest
    | some lt =>
      match au.foreName with
      | none => lt :: parseAuthors rest
      | some ft => some (pyShow ft ++ " " ++ pyShow lt) :: parseAuthors rest

/-- Embedding of `_parse_article_xml` (lines 175-223).  Every access the body
performs is total under ElementTree semantics, so the `except` branch (line
221) is unreachable and the parser always produces a Paper. -/
def parse_article_xml (a : ArticleXml) : Paper :=
  let title : Option String :=
    match a.articleTitle with
    | some t => t
    | none => some "No title"
  let abstract_texts : List String :=
    (a.abstractTexts.filter pyTruthyStr).map (fun t => t.getD "")
  let abstract : String :=
    if abstract_texts.isEmpty then "No abstract available"
    else String.intercalate " " abstract_texts
  let year : Option String :=
    match a.pubYear with
    | some t => t
    | none => some "Unknown"
  let journal : Option String :=
    match a.journalTitle with
    | some t => t
    | none => some "Unknown journal"
  let pmid : Option String :=
    match a.pmid with
    | some t => t
    | none => some "Unknown"
  { title := title
    authors := parseAuthors (a.authors.take 5)
    abstract := some abstract
    journal := journal
    year := year
    pmid := pmid
    pubmed_url := some ("https://pubmed.ncbi.nlm.nih.gov/" ++ pyShow pmid ++ "/") }

/-- Embedding of `_fetch_paper_details` (lines 142-173).  The id join happens
before the `try` block, so a `None` id raises out of the function
(`Except.error ()`); inside the `try`, transport/parse failures yield `[]`,
and each `PubmedArticle` node is parsed (a `Paper` instance is always truthy,
so the `if paper:` filter at line 166 keeps every parsed paper). -/
def fetch_paper_details (env : Env) (paper_ids : List (Option String)) :
    Except Unit (List Paper) :=
  if paper_ids.isEmpty then .ok []
  else
    match joinIds paper_ids with
    | none => .error ()
    | some idstr =>
      match env.efetch idstr with
      | none => .ok []
      | some articles => .ok (articles.map parse_article_xml)

/-- Embedding of `_search_pubmed` (lines 102-111): phase 1, then phase 2 when
any ids were found. -/
def search_pubmed (env : Env) (keywords : String) (max_results : Int) :
    Except Unit (List Paper) :=
  let paper_ids := get_paper_ids env keywords max_results
  if paper_ids.isEmpty then .ok []
  else fetch_paper_details env paper_ids

/-- Replace the element at position `i` (when present) by `f` of it; models an
in-place assignment to `papers[i]`. -/
def updateAt (ps : List Paper) (i : Nat) (f : Paper → Paper) : List Paper :=
  match ps, i with
  | [], _ => []
  | p :: rest, 0 => f p :: rest
  | p :: rest, Nat.succ j => p :: updateAt rest j f

/-- Embedding of the rankings for-loop (lines 279-283), with explicit state
passing for the in-place mutations.  Each item is processed in Python's
evaluation order: `ranking['index']` first, then — only when the index is in
bounds — `ranking['relevance_score']` is read and assigned, then
`ranking['reason']`.  A raising access (`none` field) aborts the loop with the
mutations made so far and flag `false`. -/
def applyRankings : List RankingItem → List Paper → List Paper × Bool
  | [], ps => (ps, true)
  | item :: rest, ps =>
    match item.index with
    | none => (ps, false)
    | some i =>
      if 0 ≤ i ∧ i < (ps.length : Int) then
        match item.relevance_score with
        | none => (ps, false)
        | some sc =>
          let ps1 := updateAt ps i.toNat (fun p => { p with relevance_score := sc })
          match item.reason with
          | none => (ps1, false)
          | some r =>
            let ps2 := updateAt ps1 i.toNat (fun p => { p with relevance_reason := r })
            applyRankings rest ps2
      else applyRankings rest ps

/-- Stable insertion (descending by `relevance_score`): the inserted paper
goes before the first element whose score it meets or exceeds.  Together with
`sortDesc` this is the functional reading of
`sorted(papers, key=lambda p: p.relevance_score, reverse=True)` at line 286:
Python's sort is stable also under `reverse=True`, and a stable descending
sort is uniquely determined by sortedness, stability and permutation — the
three properties proved below. -/
def insertDesc (p : Paper) : List Paper → List Paper
  | [] => [p]
  | q :: qs =>
    if q.relevance_score ≤ p.relevance_score then p :: q :: qs
    else q :: insertDesc p qs

/-- Stable descending insertion sort; see `insertDesc`. -/
def sortDesc : List Paper → List Paper
  | [] => []
  | p :: ps => insertDesc p (sortDesc ps)

/-- Embedding of `_rank_papers_by_relevance` (lines 225-292).  `resp = none`:
the completion call raised or `json.loads` failed, so the papers are returned
untouched.  Otherwise the for-loop runs; on success the (mutated) list is
sorted, and on a mid-loop exception the bare `except` returns the same list
object — in original order, with the mutations made before the exception. -/
def rank_papers_by_relevance (resp : Option (List RankingItem))
    (papers : List Paper) : List Paper :=
  match resp with
  | none => papers
  | some rankings =>
    match applyRankings rankings papers with
    | (ps, true) => sortDesc ps
    | (ps, false) => ps

/-- Python slice `l[:n]` for an `int` bound: a nonnegative `n` takes the first
`n` elements; a negative `n` drops the last `-n`. -/
def pySliceTo (l : List Paper) (n : Int) : List Paper :=
  if 0 ≤ n then l.take n.toNat else l.take (l.length - (-n).toNat)

/-- Embedding of `process_research_question` (lines 42-63): extract keywords,
search with `max_papers * 2`, return `[]` immediately when no papers were
found, otherwise rank and slice to the first `max_papers`.  The `Except`
propagates the one exception `_search_pubmed` can raise. -/
def process_research_question (env : Env) (question : String)
    (max_papers : Int) : Except Unit (List Paper) :=
  let keywords := extract_keywords env.completionKeywords question
  match search_pubmed env keywords (max_papers * 2) with
  | .error e => .error e
  | .ok papers =>
    if papers.isEmpty then .ok []
    else .ok (pySliceTo (rank_papers_by_relevance env.completionRank papers) max_papers)

/-! ### Concrete fixtures used by witnesses and counterexamples -/

/-- A default-scored stub paper with the given title, as the literature client
would produce for an article that carries only a title. -/
def mkPaper (t : String) : Paper :=
  { title := some t
    authors := []
    abstract := some "No abstract available"
    journal := some "Unknown journal"
    year := some "Unknown"
    pmid := some "Unknown"
    pubmed_url := some "https://pubmed.ncbi.nlm.nih.gov/Unknown/" }

/-- A fully populated ranking object. -/
def rkItem (i : Int) (s : ℚ) (r : String) : RankingItem :=
  { index := some i, relevance_score := some s, reason := some r }

/-- Environment whose phase-1 search always fails at transport level; every
other oracle is irrelevant. -/
def envNoResults : Env :=
  { completionKeywords := none
    esearch := fun _ _ => none
    efetch := fun _ => none
    completionRank := none }

/-- Environment whose phase-1 response contains a single empty `Id` element
(`<Id/>`, text `None`), and whose remaining oracles never answer. -/
def envEmptyId : Env :=
  { completionKeywords := none
    esearch := fun _ _ => some (some [none])
    efetch := fun _ => none
    completionRank := none }

/-- The four stub papers A, B, C, D of the ranking scenario. -/
def papersABCD : List Paper :=
  [mkPaper "A", mkPaper "B", mkPaper "C", mkPaper "D"]

/-- The stubbed ranking response assigning scores [3.0, 9.5, 1.0, 9.5] to
papers A, B, C, D (9.5 is written as the exact rational 19/2). -/
def rankingsBDAC : List RankingItem :=
  [rkItem 0 3 "a", rkItem 1 (mkRat 19 2) "b", rkItem 2 1 "c", rkItem 3 (mkRat 19 2) "d"]

/-- Two default-scored stub papers. -/
def papersP2 : List Paper := [mkPaper "P0", mkPaper "P1"]

/-- A rankings array whose first object is well-formed and whose second lacks
the `index` key, so its subscript access raises mid-loop. -/
def itemsPartial : List RankingItem :=
  [rkItem 0 5 "why", { index := none, relevance_score := none, reason := none }]

/-- A rankings array holding a single out-of-range index. -/
def itemsOOB : List RankingItem :=
  [{ index := some 99, relevance_score := none, reason := none }]

/-- An article node whose `ArticleTitle` element is present but empty (text
`None`), all other nodes absent. -/
def articleEmptyTitle : ArticleXml :=
  { articleTitle := some none
    abstractTexts := []
    authors := []
    pubYear := none
    journalTitle := none
    pmid := none }

/-- An article node with every queried node absent. -/
def articleAllAbsent : ArticleXml :=
  { articleTitle := none
    abstractTexts := []
    authors := []
    pubYear := none
    journalTitle := none
    pmid := none }

/-- An author node without a `LastName` child. -/
def auNoLast : AuthorXml := { lastName := none, foreName := some (some "John") }

/-- An author node with both children present and textual. -/
def auSmith : AuthorXml :=
  { lastName := some (some "Smith"), foreName := some (some "John") }

/-- Forget a paper's ranking enrichment, keeping its identity fields; used to
state that the ranking loop touches only `relevance_score` and
`relevance_reason`. -/
def eraseRank (p : Paper) : Paper :=
  { p with relevance_score := 0, relevance_reason := "" }

/-! ### Helper lemmas -/

theorem updateAt_length (ps : List Paper) (i : Nat) (f : Paper → Paper) :
    (updateAt ps i f).length = ps.length := by
  induction ps generalizing i with
  | nil => rfl
  | cons p rest ih =>
    cases i with
    | zero => rfl
    | succ j => simpa [updateAt] using ih j

theorem updateAt_getElem?_ne (ps : List Paper) (i j : Nat) (f : Paper → Paper)
    (h : i ≠ j) : (updateAt ps i f)[j]? = ps[j]? := by
  induction ps generalizing i j with
  | nil => rfl
  | cons p rest ih =>
    cases i with
    | zero =>
      cases j with
      | zero => exact absurd rfl h
      | succ j' => simp [updateAt]
    | succ i' =>
      cases j with
      | zero => simp [updateAt]
      | succ j' => simpa [updateAt] using ih i' j' (by omega)

theorem map_eraseRank_updateAt (ps : List Paper) (i : Nat) (f : Paper → Paper)
    (hf : ∀ p, eraseRank (f p) = eraseRank p) :
    (updateAt ps i f).map eraseRank = ps.map eraseRank := by
  induction ps generalizing i with
  | nil => rfl
  | cons p rest ih =>
    cases i with
    | zero => simp [updateAt, hf]
    | succ j => simpa [updateAt] using ih j

theorem applyRankings_map_eraseRank (items : List RankingItem) (ps : List Paper) :
    ((applyRankings items ps).1).map eraseRank = ps.map eraseRank := by
  induction items generalizing ps with
  | nil => rfl
  | cons item rest ih =>
    obtain ⟨oi, osc, ors⟩ := item
    cases oi with
    | none => rfl
    | some i =>
      by_cases hb : 0 ≤ i ∧ i < (ps.length : Int)
      · cases osc with
        | none => simp [applyRankings, if_pos hb]
        | some sc =>
          cases ors with
          | none =>
            simp only [applyRankings, if_pos hb]
            exact map_eraseRank_updateAt ps i.toNat _ (fun p => rfl)
          | some r =>
            simp only [applyRankings, if_pos hb]
            rw [ih]
            exact (map_eraseRank_updateAt (updateAt ps i.toNat
                (fun p => { p with relevance_score := sc })) i.toNat
                (fun p => { p with relevance_reason := r }) (fun p => rfl)).trans
              (map_eraseRank_updateAt ps i.toNat
                (fun p => { p with relevance_score := sc }) (fun p => rfl))
      · simp only [applyRankings, if_neg hb]
        exact ih ps

theorem applyRankings_length (items : List RankingItem) (ps : List Paper) :
    ((applyRankings items ps).1).length = ps.length := by
  have h := congrArg List.length (applyRankings_map_eraseRank items ps)
  simpa using h

theorem insertDesc_perm (p : Paper) (l : List Paper) :
    (insertDesc p l).Perm (p :: l) := by
  induction l with
  | nil => exact List.Perm.refl _
  | cons q qs ih =>
    by_cases h : q.relevance_score ≤ p.relevance_score
    · simp only [insertDesc, if_pos h]
      exact List.Perm.refl _
    · simp only [insertDesc, if_neg h]
      exact (ih.cons q).trans (List.Perm.swap p q qs)

theorem sortDesc_perm (l : List Paper) : (sortDesc l).Perm l := by
  induction l with
  | nil => exact List.Perm.refl _
  | cons p ps ih => exact (insertDesc_perm p (sortDesc ps)).trans (ih.cons p)

theorem insertDesc_pairwise (p : Paper) (l : List Paper)
    (h : l.Pairwise (fun a b => b.relevance_score ≤ a.relevance_score)) :
    (insertDesc p l).Pairwise (fun a b => b.relevance_score ≤ a.relevance_score) := by
  induction l with
  | nil => simp [insertDesc]
  | cons q qs ih =>
    rcases List.pairwise_cons.1 h with ⟨hq, hqs⟩
    by_cases hle : q.relevance_score ≤ p.relevance_score
    · simp only [insertDesc, if_pos hle]
      refine List.pairwise_cons.2 ⟨?_, h⟩
      intro x hx
      rcases List.mem_cons.1 hx with rfl | hx'
      · exact hle
      · exact le_trans (hq x hx') hle
    · simp only [insertDesc, if_neg hle]
      refine List.pairwise_cons.2 ⟨?_, ih hqs⟩
      intro x hx
      rcases List.mem_cons.1 ((insertDesc_perm p qs).mem_iff.1 hx) with rfl | hx'
      · exact le_of_not_le hle
      · exact hq x hx'

theorem sortDesc_pairwise (l : List Paper) :
    (sortDesc l).Pairwise (fun a b => b.relevance_score ≤ a.relevance_score) := by
  induction l with
  | nil => simp [sortDesc]
  | cons p ps ih => exact insertDesc_pairwise p (sortDesc ps) ih

theorem filter_insertDesc_eq (p : Paper) (l : List Paper) (s : ℚ)
    (hp : p.relevance_score = s) :
    (insertDesc p l).filter (fun q => decide (q.relevance_score = s)) =
      p :: l.filter (fun q => decide (q.relevance_score = s)) := by
  induction l with
  | nil => simp [insertDesc, hp]
  | cons q qs ih =>
    by_cases hle : q.relevance_score ≤ p.relevance_score
    · simp only [insertDesc, if_pos hle, List.filter_cons]
      simp [hp]
    · have hq : ¬ (q.relevance_score = s) := by
        intro hqs
        exact hle (le_of_eq (hqs.trans hp.symm))
      simp only [insertDesc, if_neg hle, List.filter_cons]
      simp [hq, ih]

theorem filter_insertDesc_ne (p : Paper) (l : List Paper) (s : ℚ)
    (hp : p.relevance_score ≠ s) :
    (insertDesc p l).filter (fun q => decide (q.relevance_score = s)) =
      l.filter (fun q => decide (q.relevance_score = s)) := by
  induction l with
  | nil => simp [insertDesc, hp]
  | cons q qs ih =>
    by_cases hle : q.relevance_score ≤ p.relevance_score
    · simp only [insertDesc, if_pos hle, List.filter_cons]
      simp [hp]
    · simp only [insertDesc, if_neg hle, List.filter_cons]
      simp [ih]

theorem filter_sortDesc (l : List Paper) (s : ℚ) :
    (sortDesc l).filter (fun q => decide (q.relevance_score = s)) =
      l.filter (fun q => decide (q.relevance_score = s)) := by
  induction l with
  | nil => rfl
  | cons p ps ih =>
    by_cases hp : p.relevance_score = s
    · rw [sortDesc, filter_insertDesc_eq p _ s hp, ih]
      simp [List.filter_cons, hp]
    · rw [sortDesc, filter_insertDesc_ne p _ s hp, ih]
      simp [List.filter_cons, hp]

theorem joinIds_isSome (ids : List (Option String))
    (h : ∀ s ∈ ids, s.isSome) : (joinIds ids).isSome := by
  induction ids with
  | nil => rfl
  | cons a rest ih =>
    cases a with
    | none =>
      have := h none (List.mem_cons_self _ _)
      simp at this
    | some s =>
      cases rest with
      | nil => rfl
      | cons b rest' =>
        have hrest := ih (fun x hx => h x (List.mem_cons_of_mem _ hx))
        simp only [joinIds]
        cases hj : joinIds (b :: rest') with
        | none => rw [hj] at hrest; simp at hrest
        | some r => simp

theorem parseAuthors_length_le (l : List AuthorXml) :
    (parseAuthors l).length ≤ l.length := by
  induction l with
  | nil => exact Nat.le_refl 0
  | cons au rest ih =>
    obtain ⟨ln, fn⟩ := au
    cases ln with
    | none => exact Nat.le_succ_of_le ih
    | some lt =>
      cases fn with
      | none => exact Nat.succ_le_succ ih
      | some ft => exact Nat.succ_le_succ ih

theorem pySliceTo_length_le (l : List Paper) (n : Int) (hn : 0 ≤ n) :
    ((pySliceTo l n).length : Int) ≤ n := by
  simp only [pySliceTo, if_pos hn]
  have h1 : (l.take n.toNat).length ≤ n.toNat := List.length_take_le n.toNat l
  omega

/-! ### Claim theorems -/

/-- C9: if the query translator's completion call fails in any way (modelled
by `resp = none`, covering network, malformed/empty-response, quota and auth
errors, all caught by the bare `except` at line 97), `extract_keywords`
returns the original question unmodified, and no error reaches the caller
(the function is total). -/
theorem extract_keywords_fallback (q : String) : extract_keywords none q = q := rfl

/-- C8: every Paper produced by the literature client's parser has at most 5
authors, regardless of how many `Author` nodes the source XML contains
(`findall('.//Author')[:5]` at line 192). -/
theorem parser_authors_le_five (a : ArticleXml) :
    (parse_article_xml a).authors.length ≤ 5 := by
  have h1 : (parse_article_xml a).authors = parseAuthors (a.authors.take 5) := rfl
  rw [h1]
  exact le_trans (parseAuthors_length_le _) (List.length_take_le 5 a.authors)

/-- C2: the ranker's final ordering is a stable descending sort by
`relevance_score`: for every score value, the papers carrying that score
appear in the output exactly in their input order (stability, including
untouched default-0.0 papers); the output is sorted descending and is a
permutation of the input; and on the concrete scenario with scores
[3.0, 9.5, 1.0, 9.5] for papers A, B, C, D the ranked order is [B, D, A, C]. -/
theorem rank_stable_sort :
    (∀ (l : List Paper) (s : ℚ),
      (sortDesc l).filter (fun q => decide (q.relevance_score = s)) =
        l.filter (fun q => decide (q.relevance_score = s))) ∧
    (∀ l : List Paper,
      (sortDesc l).Pairwise (fun a b => b.relevance_score ≤ a.relevance_score)) ∧
    (∀ l : List Paper, (sortDesc l).Perm l) ∧
    ((rank_papers_by_relevance (some rankingsBDAC) papersABCD).map Paper.title =
      [some "B", some "D", some "A", some "C"]) :=
  ⟨filter_sortDesc, sortDesc_pairwise, sortDesc_perm, by decide⟩

/-- C7 (amended): a field whose XML node is absent maps to its defined
placeholder ("No title", "No abstract available", "Unknown journal",
"Unknown" for year and pmid).  The unamended second half of the claim — that
no produced field is ever null — is refuted by
`parser_null_field_counterexample`. -/
theorem parser_placeholders (a : ArticleXml) :
    (a.articleTitle = none → (parse_article_xml a).title = some "No title") ∧
    (a.abstractTexts.filter pyTruthyStr = [] →
      (parse_article_xml a).abstract = some "No abstract available") ∧
    (a.journalTitle = none → (parse_article_xml a).journal = some "Unknown journal") ∧
    (a.pubYear = none → (parse_article_xml a).year = some "Unknown") ∧
    (a.pmid = none → (parse_article_xml a).pmid = some "Unknown") := by
  obtain ⟨t, ab, au, y, j, p⟩ := a
  refine ⟨?_, ?_, ?_, ?_, ?_⟩ <;> intro h
  · subst h; rfl
  · simp only at h
    simp [parse_article_xml, h]
  · subst h; rfl
  · subst h; rfl
  · subst h; rfl

/-- C7 witness: on the article with every node absent, the title placeholder
is produced. -/
theorem parser_placeholders_witness :
    articleAllAbsent.articleTitle = none ∧
    (parse_article_xml articleAllAbsent).title = some "No title" :=
  ⟨rfl, (parser_placeholders articleAllAbsent).1 rfl⟩

/-- C7 counterexample: an `ArticleTitle` node that is present but empty
(ElementTree text `None`) yields a produced Paper whose `title` field is the
Python `None` — an unset/absent value — refuting "no field of a produced
Paper is ever an unset/absent value such as null". -/
theorem parser_null_field_counterexample :
    articleEmptyTitle.articleTitle = some none ∧
    (parse_article_xml articleEmptyTitle).title = none :=
  ⟨rfl, rfl⟩

/-- C10: the parser's author loop (applied after the take-5 truncation)
skips any `Author` node whose `LastName` child is absent (even when
`ForeName` is present), so the authors list can be shorter than the nodes
considered; when `LastName` is present the entry is the interpolation
"ForeName LastName" if `ForeName` exists, otherwise the `LastName` text
alone. -/
theorem parse_authors_entries (art : ArticleXml) (au : AuthorXml)
    (rest : List AuthorXml) :
    ((parse_article_xml art).authors = parseAuthors (art.authors.take 5)) ∧
    (au.lastName = none → parseAuthors (au :: rest) = parseAuthors rest) ∧
    (∀ lt, au.lastName = some lt → au.foreName = none →
      parseAuthors (au :: rest) = lt :: parseAuthors rest) ∧
    (∀ lt ft, au.lastName = some lt → au.foreName = some ft →
      parseAuthors (au :: rest) =
        some (pyShow ft ++ " " ++ pyShow lt) :: parseAuthors rest) ∧
    ((parseAuthors (au :: rest)).length ≤ (au :: rest).length) := by
  obtain ⟨ln, fn⟩ := au
  refine ⟨rfl, ?_, ?_, ?_, parseAuthors_length_le _⟩
  · intro h
    simp only at h
    subst h
    rfl
  · intro lt h hf
    simp only at h hf
    subst h; subst hf
    rfl
  · intro lt ft h hf
    simp only at h hf
    subst h; subst hf
    rfl

/-- C10 witness: a `LastName`-less author node contributes no entry even
though its `ForeName` is present. -/
theorem parse_authors_entries_witness :
    auNoLast.lastName = none ∧
    parseAuthors [auNoLast, auSmith] = parseAuthors [auSmith] :=
  ⟨rfl, (parse_authors_entries articleAllAbsent auNoLast [auSmith]).2.1 rfl⟩

/-- C5: if the literature client returns zero papers,
`process_research_question` returns the empty sequence, and the ranker is
never invoked — rendered as independence of the result from the ranking
oracle: replacing `completionRank` by anything yields the same empty
result. -/
theorem process_empty_skips_ranker (env : Env) (q : String) (m : Int)
    (h : search_pubmed env (extract_keywords env.completionKeywords q) (m * 2) = .ok []) :
    process_research_question env q m = .ok [] ∧
    ∀ r, process_research_question { env with completionRank := r } q m = .ok [] := by
  constructor
  · simp [process_research_question, h]
  · intro r
    have h' : search_pubmed { env with completionRank := r }
        (extract_keywords ({ env with completionRank := r }).completionKeywords q)
        (m * 2) = .ok [] := h
    simp [process_research_question, h']

/-- C5 witness: with a transport-failing search, the result is empty and
unchanged when the ranking oracle is swapped. -/
theorem process_empty_skips_ranker_witness :
    process_research_question envNoResults "q" 5 = .ok [] ∧
    process_research_question { envNoResults with completionRank := some rankingsBDAC }
      "q" 5 = .ok [] := by
  have h := process_empty_skips_ranker envNoResults "q" 5 rfl
  exact ⟨h.1, h.2 (some rankingsBDAC)⟩

/-- C1 (amended): for every question and every `max_papers ≥ 0`,
`process_research_question` returns a sequence of length at most
`max_papers`, obtained by searching the literature client with
`limit = max_papers * 2` and returning the first `max_papers` elements of the
ranked result.  The original claim over every integer `max_papers` is refuted
by `process_negative_max_counterexample`: Python's negative slice bound makes
"length ≤ max_papers" unsatisfiable for negative values. -/
theorem process_length_le (env : Env) (q : String) (m : Int) (hm : 0 ≤ m) :
    (∀ res, process_research_question env q m = .ok res → (res.length : Int) ≤ m) ∧
    (∀ papers, papers ≠ [] →
      search_pubmed env (extract_keywords env.completionKeywords q) (m * 2) = .ok papers →
      process_research_question env q m =
        .ok (pySliceTo (rank_papers_by_relevance env.completionRank papers) m)) := by
  constructor
  · intro res hres
    cases hs : search_pubmed env (extract_keywords env.completionKeywords q) (m * 2) with
    | error e =>
      simp only [process_research_question, hs] at hres
      exact absurd hres (by simp)
    | ok papers =>
      simp only [process_research_question, hs] at hres
      by_cases hp : papers.isEmpty = true
      · rw [if_pos hp] at hres
        simp only [Except.ok.injEq] at hres
        subst hres
        simpa using hm
      · rw [if_neg hp] at hres
        simp only [Except.ok.injEq] at hres
        subst hres
        exact pySliceTo_length_le _ m hm
  · intro papers hne hs
    simp only [process_research_question, hs]
    rw [if_neg (by simpa using hne)]

/-- C1 witness: at `max_papers = 3` with a transport-failing search, the
returned empty sequence has length at most 3. -/
theorem process_length_le_witness :
    (0 : Int) ≤ 3 ∧ ((([] : List Paper).length : Int) ≤ 3) :=
  ⟨by decide, (process_length_le envNoResults "q" 3 (by decide)).1 [] rfl⟩

/-- C1 counterexample: at `max_papers = -1` (an integer, as the claim
quantifies) the function returns the empty sequence, whose length 0 is not
`≤ -1`; so "length at most `max_papers`" fails for negative integers. -/
theorem process_negative_max_counterexample :
    process_research_question envNoResults "q" (-1) = .ok [] ∧
    ¬ ((([] : List Paper).length : Int) ≤ -1) :=
  ⟨rfl, by decide⟩

/-- C3 (amended): if the ranking completion call fails or its response is not
valid JSON (`resp = none`, a failure before any score is applied), `rank`
returns the input sequence unchanged.  If an exception occurs while applying
scores, `rank` returns the paper list in its original input order with all
identity fields unchanged (`eraseRank`-images equal), but scores applied
before the exception are kept — the fallback preserves order, not necessarily
the pre-call score values.  The original total-fallback claim is refuted by
`rank_partial_fallback_counterexample`. -/
theorem rank_fallback (papers : List Paper) :
    rank_papers_by_relevance none papers = papers ∧
    (∀ items, (applyRankings items papers).2 = false →
      rank_papers_by_relevance (some items) papers = (applyRankings items papers).1 ∧
      ((applyRankings items papers).1).map eraseRank = papers.map eraseRank) := by
  refine ⟨rfl, fun items hfail => ⟨?_, applyRankings_map_eraseRank items papers⟩⟩
  simp only [rank_papers_by_relevance]
  rcases hap : applyRankings items papers with ⟨ps, flag⟩
  rw [hap] at hfail
  simp only at hfail
  subst hfail
  rfl

/-- C3 witness: on the two-paper input with a rankings array failing at its
second object, the ranking step fails and the fallback equals the partially
updated list in original order. -/
theorem rank_fallback_witness :
    (applyRankings itemsPartial papersP2).2 = false ∧
    rank_papers_by_relevance (some itemsPartial) papersP2 =
      (applyRankings itemsPartial papersP2).1 :=
  ⟨rfl, ((rank_fallback papersP2).2 itemsPartial rfl).1⟩

/-- C3 counterexample: the rankings array `itemsPartial` raises while being
applied (its second object has no `index` key), yet the returned first paper
carries the freshly applied score 5 instead of its pre-call default 0 — the
fallback is partial, not total. -/
theorem rank_partial_fallback_counterexample :
    (applyRankings itemsPartial papersP2).2 = false ∧
    (rank_papers_by_relevance (some itemsPartial) papersP2).map
      (fun p => p.relevance_score) = [5, 0] ∧
    papersP2.map (fun p => p.relevance_score) = [0, 0] :=
  ⟨rfl, by decide, by decide⟩

/-- C4 (amended): the literature client's search never raises provided every
`Id` element returned by phase 1 carries text: some `.ok` result is always
returned, and a phase-1 transport error or absent id-list node yields the
empty sequence.  The unamended claim — never raises for any response — is
refuted by `search_pubmed_raises_counterexample`: an empty `<Id/>` element
makes the comma-join at line 151, which sits before the `try` block of phase
2, raise a `TypeError` that propagates to the caller. -/
theorem search_pubmed_no_raise (env : Env) (q : String) (m : Int)
    (hids : ∀ s ∈ get_paper_ids env q m, s.isSome) :
    (∃ papers, search_pubmed env q m = .ok papers) ∧
    (env.esearch q m = none → search_pubmed env q m = .ok []) ∧
    (env.esearch q m = some none → search_pubmed env q m = .ok []) := by
  refine ⟨?_, ?_, ?_⟩
  · by_cases he : (get_paper_ids env q m).isEmpty = true
    · exact ⟨[], by simp [search_pubmed, he]⟩
    · rcases Option.isSome_iff_exists.1 (joinIds_isSome _ hids) with ⟨idstr, hjs⟩
      cases hf : env.efetch idstr with
      | none =>
        exact ⟨[], by simp [search_pubmed, fetch_paper_details, he, hjs, hf]⟩
      | some arts =>
        exact ⟨arts.map parse_article_xml,
          by simp [search_pubmed, fetch_paper_details, he, hjs, hf]⟩
  · intro h
    simp [search_pubmed, get_paper_ids, h]
  · intro h
    simp [search_pubmed, get_paper_ids, h]

/-- C4 witness: with a transport-failing phase 1 the id precondition holds
vacuously and the search returns the empty sequence without raising. -/
theorem search_pubmed_no_raise_witness :
    envNoResults.esearch "q" 4 = none ∧
    search_pubmed envNoResults "q" 4 = .ok [] :=
  ⟨rfl, (search_pubmed_no_raise envNoResults "q" 4
    (fun _ h => nomatch h)).2.1 rfl⟩

/-- C4 counterexample: when the phase-1 id list holds one empty `Id` element
(text `None`), the search propagates an exception instead of returning a
sequence, refuting "search never raises an exception to its caller". -/
theorem search_pubmed_raises_counterexample :
    envEmptyId.esearch "q" 2 = some (some [none]) ∧
    search_pubmed envEmptyId "q" 2 = .error () :=
  ⟨rfl, rfl⟩

/-- C6: ranking objects with an out-of-bounds index are silently skipped:
when every ranking object carries an index and every in-bounds object also
carries a score and a reason, the apply-loop finishes without error, and any
paper position never named by an in-bounds index is left untouched — in
particular such papers keep their default 0.0 score. -/
theorem applyRankings_oob_silent (rankings : List RankingItem)
    (papers : List Paper)
    (hidx : ∀ it ∈ rankings, it.index.isSome)
    (hin : ∀ it ∈ rankings, ∀ i : Int, it.index = some i →
      0 ≤ i → i < (papers.length : Int) →
      it.relevance_score.isSome ∧ it.reason.isSome) :
    (applyRankings rankings papers).2 = true ∧
    ∀ j : Nat,
      (∀ it ∈ rankings, ∀ i : Int, it.index = some i →
        ¬(0 ≤ i ∧ i < (papers.length : Int) ∧ i.toNat = j)) →
      ((applyRankings rankings papers).1)[j]? = papers[j]? := by
  induction rankings generalizing papers with
  | nil => exact ⟨rfl, fun j _ => rfl⟩
  | cons item rest ih =>
    obtain ⟨oi, osc, ors⟩ := item
    have hoi := hidx ⟨oi, osc, ors⟩ (List.mem_cons_self _ _)
    cases oi with
    | none => exact absurd hoi (by simp)
    | some i =>
      by_cases hb : 0 ≤ i ∧ i < (papers.length : Int)
      · obtain ⟨hsc, hrs⟩ :=
          hin ⟨some i, osc, ors⟩ (List.mem_cons_self _ _) i rfl hb.1 hb.2
        rcases Option.isSome_iff_exists.1 hsc with ⟨sc, hsceq⟩
        rcases Option.isSome_iff_exists.1 hrs with ⟨r, hreq⟩
        simp only at hsceq hreq
        subst hsceq
        subst hreq
        set ps2 := updateAt (updateAt papers i.toNat
            (fun p => { p with relevance_score := sc })) i.toNat
            (fun p => { p with relevance_reason := r }) with hps2
        have hred : applyRankings (⟨some i, some sc, some r⟩ :: rest) papers =
            applyRankings rest ps2 := by
          simp only [applyRankings, if_pos hb, hps2]
        have hlen : ps2.length = papers.length := by
          rw [hps2, updateAt_length, updateAt_length]
        have hidx' : ∀ it ∈ rest, it.index.isSome :=
          fun it hit => hidx it (List.mem_cons_of_mem _ hit)
        have hin' : ∀ it ∈ rest, ∀ k : Int, it.index = some k →
            0 ≤ k → k < (ps2.length : Int) →
            it.relevance_score.isSome ∧ it.reason.isSome := by
          intro it hit k hk h0 hklen
          exact hin it (List.mem_cons_of_mem _ hit) k hk h0
            (by rwa [hlen] at hklen)
        have hih := ih ps2 hidx' hin'
        constructor
        · rw [hred]
          exact hih.1
        · intro j hj
          have hj_item := hj ⟨some i, some sc, some r⟩ (List.mem_cons_self _ _) i rfl
          have hne : i.toNat ≠ j := fun hEq => hj_item ⟨hb.1, hb.2, hEq⟩
          have hps2j : ps2[j]? = papers[j]? := by
            rw [hps2, updateAt_getElem?_ne _ _ _ _ hne,
              updateAt_getElem?_ne _ _ _ _ hne]
          have hj' : ∀ it ∈ rest, ∀ k : Int, it.index = some k →
              ¬(0 ≤ k ∧ k < (ps2.length : Int) ∧ k.toNat = j) := by
            intro it hit k hk hcon
            exact hj it (List.mem_cons_of_mem _ hit) k hk
              ⟨hcon.1, by rw [← hlen]; exact hcon.2.1, hcon.2.2⟩
          rw [hred, hih.2 j hj', hps2j]
      · have hred : applyRankings (⟨some i, osc, ors⟩ :: rest) papers =
            applyRankings rest papers := by
          simp only [applyRankings, if_neg hb]
        have hidx' : ∀ it ∈ rest, it.index.isSome :=
          fun it hit => hidx it (List.mem_cons_of_mem _ hit)
        have hin' : ∀ it ∈ rest, ∀ k : Int, it.index = some k →
            0 ≤ k → k < (papers.length : Int) →
            it.relevance_score.isSome ∧ it.reason.isSome :=
          fun it hit => hin it (List.mem_cons_of_mem _ hit)
        have hih := ih papers hidx' hin'
        refine ⟨by rw [hred]; exact hih.1, ?_⟩
        intro j hj
        rw [hred]
        exact hih.2 j (fun it hit => hj it (List.mem_cons_of_mem _ hit))

/-- C6 witness: the single ranking object with index 99 against a one-paper
list is skipped without error and the paper is untouched. -/
theorem applyRankings_oob_silent_witness :
    (applyRankings itemsOOB [mkPaper "P0"]).2 = true ∧
    ((applyRankings itemsOOB [mkPaper "P0"]).1)[0]? = [mkPaper "P0"][0]? := by
  have hidx : ∀ it ∈ itemsOOB, it.index.isSome := by decide
  have hin : ∀ it ∈ itemsOOB, ∀ i : Int, it.index = some i →
      0 ≤ i → i < (([mkPaper "P0"] : List Paper).length : Int) →
      it.relevance_score.isSome ∧ it.reason.isSome := by
    intro it hit i hi h0 hlen
    simp only [itemsOOB, List.mem_singleton] at hit
    subst hit
    simp only [Option.some.injEq] at hi
    subst hi
    simp at hlen
  have h := applyRankings_oob_silent itemsOOB [mkPaper "P0"] hidx hin
  refine ⟨h.1, h.2 0 ?_⟩
  intro it hit i hi hcon
  simp only [itemsOOB, List.mem_singleton] at hit
  subst hit
  simp only [Option.some.injEq] at hi
  subst hi
  rcases hcon with ⟨-, hlt, -⟩
  simp at hlt
